import Mathlib

set_option maxRecDepth 8000

/-!
# Verification of the Pylog syslog server (`src/pylog.py`)

Shallow embedding of the single-file syslog server: the UDP datagram
handler (`SyslogUDPHandler.handle`, lines 220-251), the bounded in-memory
log store (`LOGS` / `MAX_LOGS`, lines 31-33 and 245-249), and the web
request router (`WebUIHandler.do_GET`, lines 259-274).

Datagrams are byte lists (`Fin 256`); Python strings are Lean `String`s
(lists of unicode scalar values); the wall clock (`datetime.now()`) is an
explicit `DateTime` argument to the handler.
-/

namespace Pylog

/-- A byte of a UDP datagram payload. -/
abbrev Byte := Fin 256

/-- The six ASCII whitespace bytes removed by Python `bytes.strip()`
(`b"\t\n\x0b\x0c\r "`), used by line 222 `self.request[0].strip()`. -/
def isWsByte (b : Byte) : Bool :=
  b.val == 9 || b.val == 10 || b.val == 11 || b.val == 12 || b.val == 13 || b.val == 32

/-- The characters corresponding to the six ASCII whitespace bytes. -/
def isWsChar (c : Char) : Bool :=
  c.toNat == 9 || c.toNat == 10 || c.toNat == 11 || c.toNat == 12 || c.toNat == 13 || c.toNat == 32

/-- Python `bytes.strip()` (line 222): remove leading and trailing ASCII
whitespace bytes. -/
def stripBytes (d : List Byte) : List Byte :=
  (d.dropWhile isWsByte).rdropWhile isWsByte

/-- Removing leading and trailing ASCII whitespace characters from a
character list (the text-level counterpart of `stripBytes`). -/
def stripChars (s : List Char) : List Char :=
  (s.dropWhile isWsChar).rdropWhile isWsChar

/-- latin-1 ("ISO-8859-1") decoding of one byte: byte `b` maps to the
unicode scalar value `b`. -/
def latin1Char (b : Byte) : Char := Char.ofNat b.val

/-- Python `data.decode('latin-1')` (line 227, second loop iteration):
decodes every byte sequence, one character per byte. -/
def latin1Decode (d : List Byte) : List Char := d.map latin1Char

/-- A UTF-8 continuation byte (`0x80..0xBF`). -/
def contB (b : Byte) : Bool := decide (0x80 ≤ b.val ∧ b.val ≤ 0xBF)

/-- Valid second byte of a three-byte UTF-8 sequence led by `b0` (CPython
rejects overlong encodings and surrogate code points). -/
def cont3 (b0 b1 : Byte) : Bool :=
  if b0.val == 0xE0 then decide (0xA0 ≤ b1.val ∧ b1.val ≤ 0xBF)
  else if b0.val == 0xED then decide (0x80 ≤ b1.val ∧ b1.val ≤ 0x9F)
  else contB b1

/-- Valid second byte of a four-byte UTF-8 sequence led by `b0` (CPython
rejects overlong encodings and code points above `0x10FFFF`). -/
def cont4 (b0 b1 : Byte) : Bool :=
  if b0.val == 0xF0 then decide (0x90 ≤ b1.val ∧ b1.val ≤ 0xBF)
  else if b0.val == 0xF4 then decide (0x80 ≤ b1.val ∧ b1.val ≤ 0x8F)
  else contB b1

/-- The scalar value decoded from a two-byte UTF-8 sequence. -/
def char2 (b0 b1 : Byte) : Char :=
  Char.ofNat ((b0.val - 0xC0) * 0x40 + (b1.val - 0x80))

/-- The scalar value decoded from a three-byte UTF-8 sequence. -/
def char3 (b0 b1 b2 : Byte) : Char :=
  Char.ofNat ((b0.val - 0xE0) * 0x1000 + (b1.val - 0x80) * 0x40 + (b2.val - 0x80))

/-- The scalar value decoded from a four-byte UTF-8 sequence. -/
def char4 (b0 b1 b2 b3 : Byte) : Char :=
  Char.ofNat ((b0.val - 0xF0) * 0x40000 + (b1.val - 0x80) * 0x1000 +
    (b2.val - 0x80) * 0x40 + (b3.val - 0x80))

/-- One scalar value of strict UTF-8: decode the first character of the
byte list and return it with the remaining bytes, or `none` if the list
starts with an invalid, truncated, overlong or surrogate sequence. -/
def utf8Step : List Byte → Option (Char × List Byte)
  | [] => none
  | b0 :: rest =>
    if b0.val ≤ 0x7F then
      some (latin1Char b0, rest)
    else if 0xC2 ≤ b0.val ∧ b0.val ≤ 0xDF then
      match rest with
      | b1 :: rest1 => if contB b1 then some (char2 b0 b1, rest1) else none
      | [] => none
    else if 0xE0 ≤ b0.val ∧ b0.val ≤ 0xEF then
      match rest with
      | b1 :: b2 :: rest2 =>
        if cont3 b0 b1 && contB b2 then some (char3 b0 b1 b2, rest2) else none
      | _ => none
    else if 0xF0 ≤ b0.val ∧ b0.val ≤ 0xF4 then
      match rest with
      | b1 :: b2 :: b3 :: rest3 =>
        if cont4 b0 b1 && contB b2 && contB b3 then some (char4 b0 b1 b2 b3, rest3)
        else none
      | _ => none
    else none

/-- Strict UTF-8 decoding with fuel (each step consumes at least one
byte, so `l.length` fuel always suffices; the fuel only makes the
recursion structural). -/
def utf8DecodeF : Nat → List Byte → Option (List Char)
  | _, [] => some []
  | 0, _ :: _ => none
  | fuel + 1, b0 :: rest =>
    match utf8Step (b0 :: rest) with
    | some (c, rest2) => (utf8DecodeF fuel rest2).map (fun cs => c :: cs)
    | none => none

/-- Python `data.decode('utf-8')` (line 227, first loop iteration):
strict UTF-8 decoding, `none` on `UnicodeDecodeError`: scalar values are
taken off the front one at a time by `utf8Step`. -/
def utf8Decode (l : List Byte) : Option (List Char) :=
  utf8DecodeF l.length l

/-- Python `data.decode('latin-1')` wrapped in the loop's `try`: latin-1
decoding never raises `UnicodeDecodeError`, so the attempt always
succeeds. -/
def latin1DecodeOpt (d : List Byte) : Option (List Char) := some (latin1Decode d)

/-- Python `data.decode('ascii')` (line 227, third loop iteration):
succeeds iff every byte is below `0x80`. -/
def asciiDecode (d : List Byte) : Option (List Char) :=
  if d.all (fun b => b.val ≤ 0x7F) then some (latin1Decode d) else none

/-- The decode loop of lines 225-230: try `utf-8`, then `latin-1`, then
`ascii`, keeping the first attempt that does not raise. -/
def decodeLoop (d : List Byte) : Option (List Char) :=
  match utf8Decode d with
  | some s => some s
  | none =>
    match latin1DecodeOpt d with
    | some s => some s
    | none => asciiDecode d

/-- The `message` local of the handler after lines 222-230: the payload is
byte-stripped (line 222) and then decoded; if every attempt raised,
`message` keeps its initial value `""`. -/
def pyMessage (data : List Byte) : List Char :=
  match decodeLoop (stripBytes data) with
  | some s => s
  | none => []

/-- A wall-clock instant, standing for `datetime.now()` (line 237). -/
structure DateTime where
  year : Nat
  month : Nat
  day : Nat
  hour : Nat
  minute : Nat
  second : Nat
  deriving DecidableEq

/-- Field ranges of a real `datetime.now()` value. -/
def ValidDateTime (t : DateTime) : Prop :=
  1000 ≤ t.year ∧ t.year ≤ 9999 ∧ 1 ≤ t.month ∧ t.month ≤ 12 ∧
    1 ≤ t.day ∧ t.day ≤ 31 ∧ t.hour ≤ 23 ∧ t.minute ≤ 59 ∧ t.second ≤ 59

instance (t : DateTime) : Decidable (ValidDateTime t) := by
  unfold ValidDateTime; infer_instance

/-- Two-digit zero-padded decimal rendering (strftime `%m`, `%d`, `%H`,
`%M`, `%S` for in-range values). -/
def pad2 (n : Nat) : List Char := [Nat.digitChar (n / 10), Nat.digitChar (n % 10)]

/-- Four-digit zero-padded decimal rendering (strftime `%Y` for years in
`1000..9999`). -/
def pad4 (n : Nat) : List Char :=
  [Nat.digitChar (n / 1000), Nat.digitChar (n / 100 % 10),
    Nat.digitChar (n / 10 % 10), Nat.digitChar (n % 10)]

/-- Line 237: `datetime.now().strftime('%Y-%m-%d %H:%M:%S')`. -/
def fmtTime (t : DateTime) : String :=
  ⟨pad4 t.year ++ '-' :: pad2 t.month ++ '-' :: pad2 t.day ++
    ' ' :: pad2 t.hour ++ ':' :: pad2 t.minute ++ ':' :: pad2 t.second⟩

/-- Checks the shape `YYYY-MM-DD HH:MM:SS`: 19 characters, digits at the
digit positions and the three separators in place. -/
def isTimestampFormat (s : String) : Bool :=
  match s.data with
  | [y1, y2, y3, y4, q1, m1, m2, q2, d1, d2, sp, h1, h2, c1, n1, n2, c2, s1, s2] =>
    y1.isDigit && y2.isDigit && y3.isDigit && y4.isDigit && q1 == '-' &&
      m1.isDigit && m2.isDigit && q2 == '-' && d1.isDigit && d2.isDigit &&
      sp == ' ' && h1.isDigit && h2.isDigit && c1 == ':' &&
      n1.isDigit && n2.isDigit && c2 == ':' && s1.isDigit && s2.isDigit
  | _ => false

/-- The `log_entry` dict of lines 239-243. -/
structure LogEntry where
  timestamp : String
  source : String
  message : String
  deriving DecidableEq

/-- Line 33: cap on the number of logs stored in memory. -/
def MAX_LOGS : Nat := 2000

/-- Lines 246-249 inside `with LOGS_LOCK`: `LOGS.append(log_entry)`, then
`if len(LOGS) > MAX_LOGS: del LOGS[0]` (the cap is a parameter so that the
same operation can be studied at other cap values). -/
def appendEvict (cap : Nat) (logs : List LogEntry) (e : LogEntry) : List LogEntry :=
  let l := logs ++ [e]
  if l.length > cap then l.drop 1 else l

/-- The body of `SyslogUDPHandler.handle` inside the outer `try`
(lines 221-249).  The `Except` layer records whether the body raises an
exception to the `except` clause of line 250; every operation the body
performs is total or has its failure handled (the decode loop), so the
result is always `Except.ok`. -/
def handleBody (data : List Byte) (source : String) (now : DateTime)
    (logs : List LogEntry) : Except String (List LogEntry) :=
  if pyMessage data = [] then Except.ok logs
  else Except.ok (appendEvict MAX_LOGS logs ⟨fmtTime now, source, ⟨pyMessage data⟩⟩)

/-- `SyslogUDPHandler.handle` (lines 220-251): run the body; the
`except Exception` clause of line 250 prints and returns, leaving the
store as it was. -/
def handle (data : List Byte) (source : String) (now : DateTime)
    (logs : List LogEntry) : List LogEntry :=
  match handleBody data source now logs with
  | Except.ok l => l
  | Except.error _ => logs

/-- Stores reachable from the initial empty `LOGS` (line 32) by a sequence
of datagram-handler invocations, each stamped with a real wall-clock
instant. -/
inductive Reachable : List LogEntry → Prop
  | nil : Reachable []
  | step (data : List Byte) (source : String) (t : DateTime) (logs : List LogEntry) :
      Reachable logs → ValidDateTime t → Reachable (handle data source t logs)


/-- One `\uXXXX` escape (lowercase hex, as `json.dumps` emits). -/
def uEscape (n : Nat) : List Char :=
  ['\\', 'u', Nat.digitChar (n / 4096 % 16), Nat.digitChar (n / 256 % 16),
    Nat.digitChar (n / 16 % 16), Nat.digitChar (n % 16)]


/-- Line 37: the fixed `HTML_CONTENT` page served for `GET /` (verbatim,
with braces, apostrophes, backticks and dollar signs written as hex
escapes). -/
def HTML_CONTENT : String :=
  "\n<!DOCTYPE html>\n<html lang=\"en\">\n<head>\n    <meta charset=\"UTF-8\">\n    <meta name=\"viewpo" ++
  "rt\" content=\"width=device-width, initial-scale=1.0\">\n    <title>Simple Syslog Viewer</title>\n  " ++
  "  <script src=\"https://cdn.tailwindcss.com\"></script>\n    <style>\n        /* Simple dark theme *" ++
  "/\n        body \x7b\n            background-color: #1a202c;\n            color: #e2e8f0;\n         " ++
  "   font-family: \x27Inter\x27, sans-serif;\n        \x7d\n        .table-container \x7b\n           " ++
  " max-height: calc(100vh - 150px); /* Adjust based on header/footer height */\n            overflow-y" ++
  ": auto;\n        \x7d\n        /* Custom scrollbar for a better look */\n        .table-container::-" ++
  "webkit-scrollbar \x7b\n            width: 8px;\n        \x7d\n        .table-container::-webkit-scro" ++
  "llbar-track \x7b\n            background: #2d3748;\n        \x7d\n        .table-container::-webkit-" ++
  "scrollbar-thumb \x7b\n            background: #4a5568;\n            border-radius: 4px;\n        " ++
  "\x7d\n    </style>\n    <link rel=\"preconnect\" href=\"https://rsms.me/\">\n    <link rel=\"stylesh" ++
  "eet\" href=\"https://rsms.me/inter/inter.css\">\n</head>\n<body class=\"antialiased\">\n    <div cla" ++
  "ss=\"container mx-auto p-4 md:p-6\">\n        <header class=\"mb-4\">\n            <h1 class=\"text-" ++
  "3xl font-bold text-white\">Simple Syslog Viewer</h1>\n            <p class=\"text-gray-400\">Live lo" ++
  "g messages from your syslog clients.</p>\n        </header>\n\n        <!-- Filter and Search Contro" ++
  "ls -->\n        <div class=\"flex flex-wrap items-center gap-4 p-4 bg-gray-900/50 rounded-lg shadow-" ++
  "md mb-4\">\n            <div class=\"relative flex-grow\">\n                <input type=\"text\" id=" ++
  "\"searchInput\" placeholder=\"Search logs...\"\n                       class=\"w-full bg-gray-700 te" ++
  "xt-white placeholder-gray-400 rounded-md py-2 px-4 focus:outline-none focus:ring-2 focus:ring-blue-5" ++
  "00\">\n                <svg class=\"absolute right-3 top-1/2 -translate-y-1/2 h-5 w-5 text-gray-400" ++
  "\" xmlns=\"http://www.w3.org/2000/svg\" viewBox=\"0 0 20 20\" fill=\"currentColor\">\n              " ++
  "      <path fill-rule=\"evenodd\" d=\"M9 3.5a5.5 5.5 0 100 11 5.5 5.5 0 000-11zM2 9a7 7 0 1112.452 4" ++
  ".391l3.328 3.329a.75.75 0 11-1.06 1.06l-3.329-3.328A7 7 0 012 9z\" clip-rule=\"evenodd\" />\n       " ++
  "         </svg>\n            </div>\n            <button id=\"clearButton\" class=\"bg-red-600 hover" ++
  ":bg-red-700 text-white font-bold py-2 px-4 rounded-md transition-colors\">\n                Clear Se" ++
  "arch\n            </button>\n            <div class=\"flex items-center space-x-2 text-sm text-gray-" ++
  "300\">\n                <label for=\"autoRefreshToggle\">Auto-refresh:</label>\n                <inp" ++
  "ut type=\"checkbox\" id=\"autoRefreshToggle\" class=\"form-checkbox h-5 w-5 text-blue-500 bg-gray-70" ++
  "0 border-gray-600 rounded focus:ring-blue-500\" checked>\n            </div>\n             <div id=" ++
  "\"logCount\" class=\"text-sm text-gray-400\"></div>\n        </div>\n\n        <!-- Log Display Tabl" ++
  "e -->\n        <div class=\"bg-gray-800 rounded-lg shadow-xl table-container\">\n            <table " ++
  "class=\"w-full text-left\">\n                <thead class=\"sticky top-0 bg-gray-900\">\n           " ++
  "         <tr>\n                        <th class=\"p-4 text-sm font-semibold text-gray-300 w-1/5\">T" ++
  "imestamp</th>\n                        <th class=\"p-4 text-sm font-semibold text-gray-300 w-1/5\">S" ++
  "ource</th>\n                        <th class=\"p-4 text-sm font-semibold text-gray-300 w-3/5\">Mess" ++
  "age</th>\n                    </tr>\n                </thead>\n                <tbody id=\"logTableB" ++
  "ody\" class=\"divide-y divide-gray-700\">\n                    <!-- Log entries will be inserted her" ++
  "e by JavaScript -->\n                </tbody>\n            </table>\n            <div id=\"loadingIn" ++
  "dicator\" class=\"text-center p-8 text-gray-500\">Loading logs...</div>\n        </div>\n\n    </div" ++
  ">\n\n    <script>\n        const logTableBody = document.getElementById(\x27logTableBody\x27);\n    " ++
  "    const searchInput = document.getElementById(\x27searchInput\x27);\n        const clearButton = d" ++
  "ocument.getElementById(\x27clearButton\x27);\n        const autoRefreshToggle = document.getElementB" ++
  "yId(\x27autoRefreshToggle\x27);\n        const logCountElement = document.getElementById(\x27logCoun" ++
  "t\x27);\n        const loadingIndicator = document.getElementById(\x27loadingIndicator\x27);\n\n    " ++
  "    let allLogs = [];\n        let autoRefreshInterval;\n\n        // Function to fetch logs from th" ++
  "e server\n        async function fetchLogs() \x7b\n            try \x7b\n                const respo" ++
  "nse = await fetch(\x27/logs\x27);\n                if (!response.ok) \x7b\n                    throw" ++
  " new Error(\x27Network response was not ok\x27);\n                \x7d\n                allLogs = aw" ++
  "ait response.json();\n                renderLogs();\n            \x7d catch (error) \x7b\n          " ++
  "      console.error(\x27Failed to fetch logs:\x27, error);\n                logTableBody.innerHTML =" ++
  " \x27<tr><td colspan=\"3\" class=\"text-center p-4 text-red-400\">Error loading logs. Is the server " ++
  "running?</td></tr>\x27;\n            \x7d finally \x7b\n                loadingIndicator.style.displ" ++
  "ay = \x27none\x27;\n            \x7d\n        \x7d\n\n        // Function to render logs based on th" ++
  "e current filter\n        function renderLogs() \x7b\n            const searchTerm = searchInput.val" ++
  "ue.toLowerCase();\n            const filteredLogs = allLogs.filter(log =>\n                log.messa" ++
  "ge.toLowerCase().includes(searchTerm) ||\n                log.source.toLowerCase().includes(searchTe" ++
  "rm)\n            );\n\n            // Reverse the logs to show the newest first\n            const l" ++
  "ogsToRender = filteredLogs.slice().reverse();\n\n            logTableBody.innerHTML = \x27\x27; // C" ++
  "lear existing logs\n\n            if (logsToRender.length === 0 && allLogs.length > 0) \x7b\n       " ++
  "         const row = document.createElement(\x27tr\x27);\n                row.innerHTML = \x60<td co" ++
  "lspan=\"3\" class=\"text-center p-4 text-gray-500\">No logs match your search.</td>\x60;\n          " ++
  "      logTableBody.appendChild(row);\n            \x7d else \x7b\n                 logsToRender.forE" ++
  "ach(log => \x7b\n                    const row = document.createElement(\x27tr\x27);\n              " ++
  "      row.className = \x27hover:bg-gray-700/50\x27;\n\n                    // Sanitize content to pr" ++
  "event HTML injection\n                    const escapeHtml = (unsafe) => \x7b\n                     " ++
  "   return unsafe\n                             .replace(/&/g, \"&amp;\")\n                          " ++
  "   .replace(/</g, \"&lt;\")\n                             .replace(/>/g, \"&gt;\")\n                " ++
  "             .replace(/\"/g, \"&quot;\")\n                             .replace(/\x27/g, \"&#039;\")" ++
  ";\n                    \x7d\n\n                    row.innerHTML = \x60\n                        <td" ++
  " class=\"p-3 text-sm text-gray-400 whitespace-nowrap\">\x24\x7bescapeHtml(log.timestamp)\x7d</td>\n " ++
  "                       <td class=\"p-3 text-sm text-gray-300 whitespace-nowrap\">\x24\x7bescapeHtml(" ++
  "log.source)\x7d</td>\n                        <td class=\"p-3 text-sm text-white font-mono\" style=" ++
  "\"word-break: break-all;\">\x24\x7bescapeHtml(log.message)\x7d</td>\n                    \x60;\n    " ++
  "                logTableBody.appendChild(row);\n                \x7d);\n            \x7d\n          " ++
  "  logCountElement.textContent = \x60Displaying \x24\x7blogsToRender.length\x7d of \x24\x7ballLogs.le" ++
  "ngth\x7d logs.\x60;\n        \x7d\n\n        // --- Event Listeners and Initializers ---\n        se" ++
  "archInput.addEventListener(\x27keyup\x27, renderLogs);\n        \n        clearButton.addEventListen" ++
  "er(\x27click\x27, () => \x7b\n            searchInput.value = \x27\x27;\n            renderLogs();\n" ++
  "        \x7d);\n\n        function setupAutoRefresh() \x7b\n             if (autoRefreshToggle.check" ++
  "ed) \x7b\n                autoRefreshInterval = setInterval(fetchLogs, 3000);\n            \x7d else" ++
  " \x7b\n                clearInterval(autoRefreshInterval);\n            \x7d\n        \x7d\n        " ++
  "\n        autoRefreshToggle.addEventListener(\x27change\x27, setupAutoRefresh);\n\n        // Initia" ++
  "l fetch and setup\n        document.addEventListener(\x27DOMContentLoaded\x27, () => \x7b\n         " ++
  "   fetchLogs();\n            setupAutoRefresh();\n        \x7d);\n    </script>\n</body>\n</html>\n"

/-- Python `json.dumps` escaping of one character (default
`ensure_ascii=True`, separators `(', ', ': ')`): two-character escapes for
quote, backslash and the common control characters, `\uXXXX` for other
control characters and all non-ASCII characters, surrogate pairs beyond
the BMP. -/
def jsonEscapeChar (c : Char) : List Char :=
  if c = '"' then ['\\', '"']
  else if c = '\\' then ['\\', '\\']
  else if c = '\n' then ['\\', 'n']
  else if c = '\t' then ['\\', 't']
  else if c = '\r' then ['\\', 'r']
  else if c.toNat = 8 then ['\\', 'b']
  else if c.toNat = 12 then ['\\', 'f']
  else if c.toNat < 0x20 ∨ 0x7F ≤ c.toNat then
    if c.toNat < 0x10000 then uEscape c.toNat
    else uEscape (0xD800 + (c.toNat - 0x10000) / 0x400) ++
      uEscape (0xDC00 + (c.toNat - 0x10000) % 0x400)
  else [c]

/-- `json.dumps` rendering of one string value. -/
def jsonString (s : String) : String :=
  ⟨'"' :: (s.data.map jsonEscapeChar).flatten ++ ['"']⟩

/-- `json.dumps` rendering of one `log_entry` dict: keys in insertion
order (lines 239-243), default separators. -/
def dumpEntry (e : LogEntry) : String :=
  "\x7b\"timestamp\": " ++ jsonString e.timestamp ++
    ", \"source\": " ++ jsonString e.source ++
    ", \"message\": " ++ jsonString e.message ++ "\x7d"

/-- Line 270: `json.dumps(LOGS)` for the list of stored entries. -/
def jsonDumps (logs : List LogEntry) : String :=
  "[" ++ String.intercalate ", " (logs.map dumpEntry) ++ "]"

/-- An HTTP response as assembled by `WebUIHandler.do_GET`: status code,
optional `Content-type` header value, and body (the body bytes are the
UTF-8 encoding of this string). -/
structure HTTPResponse where
  status : Nat
  contentType : Option String
  body : String
  deriving DecidableEq

/-- `WebUIHandler.do_GET` (lines 259-274) as a function of `self.path`
(the raw request target, which in `BaseHTTPRequestHandler` includes any
query string) and the current store.  Lines 260-264 serve the viewer page
when the path is exactly `"/"`; lines 265-270 serve the JSON log dump when
it is exactly `"/logs"`; lines 271-274 send `404` with no body. -/
def doGET (path : String) (logs : List LogEntry) : HTTPResponse :=
  if path = "/" then ⟨200, some "text/html", HTML_CONTENT⟩
  else if path = "/logs" then ⟨200, some "application/json", jsonDumps logs⟩
  else ⟨404, none, ""⟩

/-- Primitive effects performed by the `/logs` branch of `do_GET`. -/
inductive ServerOp where
  | sendStatus (code : Nat)
  | sendHeader (key value : String)
  | endHeaders
  | acquireLock
  | releaseLock
  | serializeJson
  | writeBody
  | copyList
  deriving DecidableEq, BEq

/-- The statement sequence of the `/logs` branch, lines 266-270: send the
status and header, then — inside `with LOGS_LOCK:` — evaluate
`json.dumps(LOGS)` and write it to `wfile`.  There is no copy of `LOGS`
anywhere in the branch. -/
def logsBranchOps : List ServerOp :=
  [ServerOp.sendStatus 200, ServerOp.sendHeader "Content-type" "application/json",
    ServerOp.endHeaders, ServerOp.acquireLock, ServerOp.serializeJson,
    ServerOp.writeBody, ServerOp.releaseLock]

/-- The operations of a trace that execute while the lock is held, given
the current lock depth. -/
def opsUnderLock : List ServerOp → Nat → List ServerOp
  | [], _ => []
  | op :: rest, d =>
    match op with
    | ServerOp.acquireLock => opsUnderLock rest (d + 1)
    | ServerOp.releaseLock => opsUnderLock rest (d - 1)
    | _ => (if 0 < d then [op] else []) ++ opsUnderLock rest d

/-- Whether JSON serialization happens while the lock is held. -/
def serializedUnderLock (ops : List ServerOp) : Bool :=
  (opsUnderLock ops 0).contains ServerOp.serializeJson

/-- Whether the response body is written while the lock is held. -/
def wroteBodyUnderLock (ops : List ServerOp) : Bool :=
  (opsUnderLock ops 0).contains ServerOp.writeBody


/-! ## UTF-8 decode lemmas -/


theorem utf8Step_length (l : List Byte) (c : Char) (r : List Byte)
    (h : utf8Step l = some (c, r)) : r.length < l.length := by
  rcases l with _ | ⟨b0, _ | ⟨b1, _ | ⟨b2, _ | ⟨b3, t⟩⟩⟩⟩ <;>
      simp only [utf8Step] at h <;>
      (try split_ifs at h) <;>
      simp_all <;>
      omega

theorem utf8DecodeF_agree : ∀ (f1 f2 : Nat) (l : List Byte),
    l.length ≤ f1 → l.length ≤ f2 → utf8DecodeF f1 l = utf8DecodeF f2 l := by
  intro f1
  induction f1 with
  | zero =>
    intro f2 l h1 h2
    cases l with
    | nil => cases f2 <;> rfl
    | cons b t => simp at h1
  | succ f1 ih =>
    intro f2 l h1 h2
    cases l with
    | nil => cases f2 <;> rfl
    | cons b0 rest =>
      cases f2 with
      | zero => simp at h2
      | succ g =>
        simp only [utf8DecodeF]
        cases hs : utf8Step (b0 :: rest) with
        | none => rfl
        | some p =>
          obtain ⟨c, r⟩ := p
          have hlt := utf8Step_length _ _ _ hs
          simp only [List.length_cons] at hlt h1 h2
          dsimp only
          rw [ih g r (by omega) (by omega)]

theorem utf8DecodeF_fuel (fuel : Nat) (l : List Byte) (h : l.length ≤ fuel) :
    utf8DecodeF fuel l = utf8Decode l :=
  utf8DecodeF_agree fuel l.length l h le_rfl

theorem utf8Decode_nil : utf8Decode [] = some [] := rfl

theorem utf8Decode_cons (b0 : Byte) (rest : List Byte) :
    utf8Decode (b0 :: rest) =
      match utf8Step (b0 :: rest) with
      | some (c, r) => (utf8Decode r).map (fun cs => c :: cs)
      | none => none := by
  unfold utf8Decode
  simp only [List.length_cons, utf8DecodeF]
  cases hs : utf8Step (b0 :: rest) with
  | none => rfl
  | some p =>
    obtain ⟨c, r⟩ := p
    have hlt := utf8Step_length _ _ _ hs
    simp only [List.length_cons] at hlt
    dsimp only
    rw [utf8DecodeF_agree rest.length r.length r (by omega) le_rfl]

theorem isWsByte_ascii (b : Byte) (h : isWsByte b = true) : b.val ≤ 0x7F := by
  simp [isWsByte] at h
  omega

theorem toNat_ofNat_valid (n : Nat) (h : n.isValidChar) : (Char.ofNat n).toNat = n := by
  simp [Char.ofNat, h, Char.ofNatAux, Char.toNat, UInt32.toNat]

theorem isWsChar_latin1Char (b : Byte) : isWsChar (latin1Char b) = isWsByte b := by
  have hb := b.isLt
  have hv : (b.val).isValidChar := Or.inl (by omega)
  simp [isWsChar, isWsByte, latin1Char, toNat_ofNat_valid _ hv]

theorem isWsChar_ge (c : Char) (h : 0x80 ≤ c.toNat) : isWsChar c = false := by
  simp [isWsChar]
  omega

theorem contB_val (b : Byte) (h : contB b = true) : 0x80 ≤ b.val ∧ b.val ≤ 0xBF := by
  simpa [contB] using h

theorem cont3_val (b0 b1 : Byte) (h : cont3 b0 b1 = true) :
    (b0.val = 0xE0 ∧ 0xA0 ≤ b1.val ∧ b1.val ≤ 0xBF) ∨
    (b0.val = 0xED ∧ 0x80 ≤ b1.val ∧ b1.val ≤ 0x9F) ∨
    (b0.val ≠ 0xE0 ∧ b0.val ≠ 0xED ∧ 0x80 ≤ b1.val ∧ b1.val ≤ 0xBF) := by
  by_cases e0 : b0.val = 0xE0
  · simp [cont3, e0] at h
    exact Or.inl ⟨e0, h⟩
  · by_cases ed : b0.val = 0xED
    · simp [cont3, e0, ed] at h
      exact Or.inr (Or.inl ⟨ed, h⟩)
    · simp [cont3, e0, ed, contB] at h
      exact Or.inr (Or.inr ⟨e0, ed, h⟩)

theorem cont4_val (b0 b1 : Byte) (h : cont4 b0 b1 = true) :
    (b0.val = 0xF0 ∧ 0x90 ≤ b1.val ∧ b1.val ≤ 0xBF) ∨
    (b0.val = 0xF4 ∧ 0x80 ≤ b1.val ∧ b1.val ≤ 0x8F) ∨
    (b0.val ≠ 0xF0 ∧ b0.val ≠ 0xF4 ∧ 0x80 ≤ b1.val ∧ b1.val ≤ 0xBF) := by
  by_cases e0 : b0.val = 0xF0
  · simp [cont4, e0] at h
    exact Or.inl ⟨e0, h⟩
  · by_cases ef : b0.val = 0xF4
    · simp [cont4, e0, ef] at h
      exact Or.inr (Or.inl ⟨ef, h⟩)
    · simp [cont4, e0, ef, contB] at h
      exact Or.inr (Or.inr ⟨e0, ef, h⟩)

theorem char2_toNat_ge (b0 b1 : Byte) (h0 : 0xC2 ≤ b0.val ∧ b0.val ≤ 0xDF)
    (h1 : contB b1 = true) : 0x80 ≤ (char2 b0 b1).toNat := by
  have hc := contB_val b1 h1
  have hv : ((b0.val - 0xC0) * 0x40 + (b1.val - 0x80)).isValidChar := Or.inl (by omega)
  rw [char2, toNat_ofNat_valid _ hv]
  omega

theorem char3_toNat_ge (b0 b1 b2 : Byte) (h0 : 0xE0 ≤ b0.val ∧ b0.val ≤ 0xEF)
    (h1 : cont3 b0 b1 = true) (h2 : contB b2 = true) :
    0x80 ≤ (char3 b0 b1 b2).toNat := by
  have hc1 := cont3_val b0 b1 h1
  have hc2 := contB_val b2 h2
  have hv : ((b0.val - 0xE0) * 0x1000 + (b1.val - 0x80) * 0x40 + (b2.val - 0x80)).isValidChar := by
    unfold Nat.isValidChar
    rcases hc1 with ⟨e, hb⟩ | ⟨e, hb⟩ | ⟨e1, e2, hb⟩ <;> omega
  rw [char3, toNat_ofNat_valid _ hv]
  rcases hc1 with ⟨e, hb⟩ | ⟨e, hb⟩ | ⟨e1, e2, hb⟩ <;> omega

theorem char4_toNat_ge (b0 b1 b2 b3 : Byte) (h0 : 0xF0 ≤ b0.val ∧ b0.val ≤ 0xF4)
    (h1 : cont4 b0 b1 = true) (h2 : contB b2 = true) (h3 : contB b3 = true) :
    0x80 ≤ (char4 b0 b1 b2 b3).toNat := by
  have hc1 := cont4_val b0 b1 h1
  have hc2 := contB_val b2 h2
  have hc3 := contB_val b3 h3
  have hv : ((b0.val - 0xF0) * 0x40000 + (b1.val - 0x80) * 0x1000 +
      (b2.val - 0x80) * 0x40 + (b3.val - 0x80)).isValidChar := by
    unfold Nat.isValidChar
    rcases hc1 with ⟨e, hb⟩ | ⟨e, hb⟩ | ⟨e1, e2, hb⟩ <;> omega
  rw [char4, toNat_ofNat_valid _ hv]
  rcases hc1 with ⟨e, hb⟩ | ⟨e, hb⟩ | ⟨e1, e2, hb⟩ <;> omega

theorem utf8Step_ascii (b0 : Byte) (rest : List Byte) (h : b0.val ≤ 0x7F) :
    utf8Step (b0 :: rest) = some (latin1Char b0, rest) := by
  simp only [utf8Step]
  rw [if_pos h]

theorem utf8Step_two (b0 b1 : Byte) (r : List Byte)
    (h0 : 0xC2 ≤ b0.val ∧ b0.val ≤ 0xDF) (hc : contB b1 = true) :
    utf8Step (b0 :: b1 :: r) = some (char2 b0 b1, r) := by
  have hn : ¬ b0.val ≤ 0x7F := by omega
  simp only [utf8Step]
  rw [if_neg hn, if_pos h0]
  try dsimp only
  rw [if_pos hc]

theorem utf8Step_three (b0 b1 b2 : Byte) (r : List Byte)
    (h0 : 0xE0 ≤ b0.val ∧ b0.val ≤ 0xEF) (h1 : cont3 b0 b1 = true) (h2 : contB b2 = true) :
    utf8Step (b0 :: b1 :: b2 :: r) = some (char3 b0 b1 b2, r) := by
  have hn : ¬ b0.val ≤ 0x7F := by omega
  have hn2 : ¬ (0xC2 ≤ b0.val ∧ b0.val ≤ 0xDF) := by omega
  simp only [utf8Step]
  rw [if_neg hn, if_neg hn2, if_pos h0]
  try dsimp only
  rw [if_pos (by simp [h1, h2] : (cont3 b0 b1 && contB b2) = true)]

theorem utf8Step_four (b0 b1 b2 b3 : Byte) (r : List Byte)
    (h0 : 0xF0 ≤ b0.val ∧ b0.val ≤ 0xF4) (h1 : cont4 b0 b1 = true)
    (h2 : contB b2 = true) (h3 : contB b3 = true) :
    utf8Step (b0 :: b1 :: b2 :: b3 :: r) = some (char4 b0 b1 b2 b3, r) := by
  have hn : ¬ b0.val ≤ 0x7F := by omega
  have hn2 : ¬ (0xC2 ≤ b0.val ∧ b0.val ≤ 0xDF) := by omega
  have hn3 : ¬ (0xE0 ≤ b0.val ∧ b0.val ≤ 0xEF) := by omega
  simp only [utf8Step]
  rw [if_neg hn, if_neg hn2, if_neg hn3, if_pos h0]
  try dsimp only
  rw [if_pos (by simp [h1, h2, h3] : (cont4 b0 b1 && contB b2 && contB b3) = true)]

theorem utf8Step_none_bad (b0 : Byte) (rest : List Byte)
    (h1 : ¬ b0.val ≤ 0x7F) (h2 : ¬ (0xC2 ≤ b0.val ∧ b0.val ≤ 0xDF))
    (h3 : ¬ (0xE0 ≤ b0.val ∧ b0.val ≤ 0xEF)) (h4 : ¬ (0xF0 ≤ b0.val ∧ b0.val ≤ 0xF4)) :
    utf8Step (b0 :: rest) = none := by
  simp only [utf8Step]
  rw [if_neg h1, if_neg h2, if_neg h3, if_neg h4]

theorem utf8Step_none_short2 (b0 : Byte) (h0 : 0xC2 ≤ b0.val ∧ b0.val ≤ 0xDF) :
    utf8Step [b0] = none := by
  simp only [utf8Step]
  rw [if_neg (by omega : ¬ b0.val ≤ 0x7F), if_pos h0]

theorem utf8Step_none_guard2 (b0 b1 : Byte) (r : List Byte)
    (h0 : 0xC2 ≤ b0.val ∧ b0.val ≤ 0xDF) (hc : contB b1 = false) :
    utf8Step (b0 :: b1 :: r) = none := by
  simp only [utf8Step]
  rw [if_neg (by omega : ¬ b0.val ≤ 0x7F), if_pos h0]
  try dsimp only
  rw [if_neg (by simp [hc])]

theorem utf8Step_none_short3a (b0 : Byte) (h0 : 0xE0 ≤ b0.val ∧ b0.val ≤ 0xEF) :
    utf8Step [b0] = none := by
  simp only [utf8Step]
  rw [if_neg (by omega : ¬ b0.val ≤ 0x7F), if_neg (by omega : ¬ (0xC2 ≤ b0.val ∧ b0.val ≤ 0xDF)),
    if_pos h0]

theorem utf8Step_none_short3b (b0 b1 : Byte) (h0 : 0xE0 ≤ b0.val ∧ b0.val ≤ 0xEF) :
    utf8Step [b0, b1] = none := by
  simp only [utf8Step]
  rw [if_neg (by omega : ¬ b0.val ≤ 0x7F), if_neg (by omega : ¬ (0xC2 ≤ b0.val ∧ b0.val ≤ 0xDF)),
    if_pos h0]

theorem utf8Step_none_guard3 (b0 b1 b2 : Byte) (r : List Byte)
    (h0 : 0xE0 ≤ b0.val ∧ b0.val ≤ 0xEF) (hg : (cont3 b0 b1 && contB b2) = false) :
    utf8Step (b0 :: b1 :: b2 :: r) = none := by
  simp only [utf8Step]
  rw [if_neg (by omega : ¬ b0.val ≤ 0x7F), if_neg (by omega : ¬ (0xC2 ≤ b0.val ∧ b0.val ≤ 0xDF)),
    if_pos h0]
  try dsimp only
  rw [if_neg (by simp [hg])]

theorem utf8Step_none_short4a (b0 : Byte) (h0 : 0xF0 ≤ b0.val ∧ b0.val ≤ 0xF4) :
    utf8Step [b0] = none := by
  simp only [utf8Step]
  rw [if_neg (by omega : ¬ b0.val ≤ 0x7F), if_neg (by omega : ¬ (0xC2 ≤ b0.val ∧ b0.val ≤ 0xDF)),
    if_neg (by omega : ¬ (0xE0 ≤ b0.val ∧ b0.val ≤ 0xEF)), if_pos h0]

theorem utf8Step_none_short4b (b0 b1 : Byte) (h0 : 0xF0 ≤ b0.val ∧ b0.val ≤ 0xF4) :
    utf8Step [b0, b1] = none := by
  simp only [utf8Step]
  rw [if_neg (by omega : ¬ b0.val ≤ 0x7F), if_neg (by omega : ¬ (0xC2 ≤ b0.val ∧ b0.val ≤ 0xDF)),
    if_neg (by omega : ¬ (0xE0 ≤ b0.val ∧ b0.val ≤ 0xEF)), if_pos h0]

theorem utf8Step_none_short4c (b0 b1 b2 : Byte) (h0 : 0xF0 ≤ b0.val ∧ b0.val ≤ 0xF4) :
    utf8Step [b0, b1, b2] = none := by
  simp only [utf8Step]
  rw [if_neg (by omega : ¬ b0.val ≤ 0x7F), if_neg (by omega : ¬ (0xC2 ≤ b0.val ∧ b0.val ≤ 0xDF)),
    if_neg (by omega : ¬ (0xE0 ≤ b0.val ∧ b0.val ≤ 0xEF)), if_pos h0]

theorem utf8Step_none_guard4 (b0 b1 b2 b3 : Byte) (r : List Byte)
    (h0 : 0xF0 ≤ b0.val ∧ b0.val ≤ 0xF4)
    (hg : (cont4 b0 b1 && contB b2 && contB b3) = false) :
    utf8Step (b0 :: b1 :: b2 :: b3 :: r) = none := by
  simp only [utf8Step]
  rw [if_neg (by omega : ¬ b0.val ≤ 0x7F), if_neg (by omega : ¬ (0xC2 ≤ b0.val ∧ b0.val ≤ 0xDF)),
    if_neg (by omega : ¬ (0xE0 ≤ b0.val ∧ b0.val ≤ 0xEF)), if_pos h0]
  try dsimp only
  rw [if_neg (by simp [hg])]

theorem utf8Step_some_inv (l : List Byte) (c : Char) (r : List Byte)
    (h : utf8Step l = some (c, r)) :
    (∃ b0, l = b0 :: r ∧ b0.val ≤ 0x7F ∧ c = latin1Char b0) ∨
    (∃ b0 b1, l = b0 :: b1 :: r ∧ (0xC2 ≤ b0.val ∧ b0.val ≤ 0xDF) ∧ contB b1 = true ∧
      c = char2 b0 b1) ∨
    (∃ b0 b1 b2, l = b0 :: b1 :: b2 :: r ∧ (0xE0 ≤ b0.val ∧ b0.val ≤ 0xEF) ∧
      cont3 b0 b1 = true ∧ contB b2 = true ∧ c = char3 b0 b1 b2) ∨
    (∃ b0 b1 b2 b3, l = b0 :: b1 :: b2 :: b3 :: r ∧ (0xF0 ≤ b0.val ∧ b0.val ≤ 0xF4) ∧
      cont4 b0 b1 = true ∧ contB b2 = true ∧ contB b3 = true ∧ c = char4 b0 b1 b2 b3) := by
  rcases l with _ | ⟨b0, rest⟩
  · simp [utf8Step] at h
  by_cases ha : b0.val ≤ 0x7F
  · rw [utf8Step_ascii b0 rest ha] at h
    simp only [Option.some.injEq, Prod.mk.injEq] at h
    exact Or.inl ⟨b0, by rw [h.2], ha, h.1.symm⟩
  by_cases h2 : 0xC2 ≤ b0.val ∧ b0.val ≤ 0xDF
  · rcases rest with _ | ⟨b1, rest1⟩
    · rw [utf8Step_none_short2 b0 h2] at h
      simp at h
    by_cases hcb : contB b1 = true
    · rw [utf8Step_two b0 b1 rest1 h2 hcb] at h
      simp only [Option.some.injEq, Prod.mk.injEq] at h
      exact Or.inr (Or.inl ⟨b0, b1, by rw [h.2], h2, hcb, h.1.symm⟩)
    · rw [utf8Step_none_guard2 b0 b1 rest1 h2 (by simpa using hcb)] at h
      simp at h
  by_cases h3 : 0xE0 ≤ b0.val ∧ b0.val ≤ 0xEF
  · rcases rest with _ | ⟨b1, _ | ⟨b2, rest2⟩⟩
    · rw [utf8Step_none_short3a b0 h3] at h
      simp at h
    · rw [utf8Step_none_short3b b0 b1 h3] at h
      simp at h
    by_cases hg : (cont3 b0 b1 && contB b2) = true
    · rw [Bool.and_eq_true] at hg
      rw [utf8Step_three b0 b1 b2 rest2 h3 hg.1 hg.2] at h
      simp only [Option.some.injEq, Prod.mk.injEq] at h
      exact Or.inr (Or.inr (Or.inl ⟨b0, b1, b2, by rw [h.2], h3, hg.1, hg.2, h.1.symm⟩))
    · rw [utf8Step_none_guard3 b0 b1 b2 rest2 h3 (by simpa using hg)] at h
      simp at h
  by_cases h4 : 0xF0 ≤ b0.val ∧ b0.val ≤ 0xF4
  · rcases rest with _ | ⟨b1, _ | ⟨b2, _ | ⟨b3, rest3⟩⟩⟩
    · rw [utf8Step_none_short4a b0 h4] at h
      simp at h
    · rw [utf8Step_none_short4b b0 b1 h4] at h
      simp at h
    · rw [utf8Step_none_short4c b0 b1 b2 h4] at h
      simp at h
    by_cases hg : (cont4 b0 b1 && contB b2 && contB b3) = true
    · rw [Bool.and_eq_true, Bool.and_eq_true] at hg
      rw [utf8Step_four b0 b1 b2 b3 rest3 h4 hg.1.1 hg.1.2 hg.2] at h
      simp only [Option.some.injEq, Prod.mk.injEq] at h
      exact Or.inr (Or.inr (Or.inr ⟨b0, b1, b2, b3, by rw [h.2], h4, hg.1.1, hg.1.2, hg.2,
        h.1.symm⟩))
    · rw [utf8Step_none_guard4 b0 b1 b2 b3 rest3 h4 (by simpa using hg)] at h
      simp at h
  · rw [utf8Step_none_bad b0 rest ha h2 h3 h4] at h
    simp at h

theorem rdropWhile_append_rtakeWhile {α : Type} (p : α → Bool) (l : List α) :
    l.rdropWhile p ++ l.rtakeWhile p = l := by
  rw [List.rdropWhile, List.rtakeWhile, ← List.reverse_append, List.takeWhile_append_dropWhile,
    List.reverse_reverse]

theorem contB_ascii (b : Byte) (h : b.val ≤ 0x7F) : contB b = false := by
  simp [contB]
  omega

theorem cont3_ascii (b0 b1 : Byte) (h : b1.val ≤ 0x7F) : cont3 b0 b1 = false := by
  unfold cont3
  split_ifs <;> simp [contB] <;> omega

theorem cont4_ascii (b0 b1 : Byte) (h : b1.val ≤ 0x7F) : cont4 b0 b1 = false := by
  unfold cont4
  split_ifs <;> simp [contB] <;> omega

theorem utf8Step_append (l : List Byte) (c : Char) (r : List Byte) (d2 : List Byte)
    (h : utf8Step l = some (c, r)) : utf8Step (l ++ d2) = some (c, r ++ d2) := by
  rcases utf8Step_some_inv l c r h with ⟨b0, hl, ha, hc⟩ | ⟨b0, b1, hl, h0, hcb, hc⟩ |
    ⟨b0, b1, b2, hl, h0, hc1, hc2, hc⟩ | ⟨b0, b1, b2, b3, hl, h0, hc1, hc2, hc3, hc⟩
  · subst hl hc
    simpa using utf8Step_ascii b0 (r ++ d2) ha
  · subst hl hc
    exact utf8Step_two b0 b1 (r ++ d2) h0 hcb
  · subst hl hc
    exact utf8Step_three b0 b1 b2 (r ++ d2) h0 hc1 hc2
  · subst hl hc
    exact utf8Step_four b0 b1 b2 b3 (r ++ d2) h0 hc1 hc2 hc3

theorem utf8Step_append_none (b0 : Byte) (rest d2 : List Byte)
    (hd2 : ∀ b ∈ d2, b.val ≤ 0x7F) (h : utf8Step (b0 :: rest) = none) :
    utf8Step ((b0 :: rest) ++ d2) = none := by
  by_cases ha : b0.val ≤ 0x7F
  · rw [utf8Step_ascii b0 rest ha] at h
    simp at h
  by_cases h2 : 0xC2 ≤ b0.val ∧ b0.val ≤ 0xDF
  · rcases rest with _ | ⟨b1, rest1⟩
    · rcases d2 with _ | ⟨w, d2w⟩
      · exact utf8Step_none_short2 b0 h2
      · exact utf8Step_none_guard2 b0 w d2w h2 (contB_ascii w (hd2 w (by simp)))
    · by_cases hcb : contB b1 = true
      · rw [utf8Step_two b0 b1 rest1 h2 hcb] at h
        simp at h
      · exact utf8Step_none_guard2 b0 b1 (rest1 ++ d2) h2 (by simpa using hcb)
  by_cases h3 : 0xE0 ≤ b0.val ∧ b0.val ≤ 0xEF
  · rcases rest with _ | ⟨b1, _ | ⟨b2, rest2⟩⟩
    · rcases d2 with _ | ⟨w1, _ | ⟨w2, d2w⟩⟩
      · exact utf8Step_none_short3a b0 h3
      · exact utf8Step_none_short3b b0 w1 h3
      · exact utf8Step_none_guard3 b0 w1 w2 d2w h3
          (by simp [cont3_ascii b0 w1 (hd2 w1 (by simp))])
    · rcases d2 with _ | ⟨w1, d2w⟩
      · exact utf8Step_none_short3b b0 b1 h3
      · exact utf8Step_none_guard3 b0 b1 w1 d2w h3
          (by simp [contB_ascii w1 (hd2 w1 (by simp))])
    · by_cases hg : (cont3 b0 b1 && contB b2) = true
      · rw [Bool.and_eq_true] at hg
        rw [utf8Step_three b0 b1 b2 rest2 h3 hg.1 hg.2] at h
        simp at h
      · exact utf8Step_none_guard3 b0 b1 b2 (rest2 ++ d2) h3 (by simpa using hg)
  by_cases h4 : 0xF0 ≤ b0.val ∧ b0.val ≤ 0xF4
  · rcases rest with _ | ⟨b1, _ | ⟨b2, _ | ⟨b3, rest3⟩⟩⟩
    · rcases d2 with _ | ⟨w1, _ | ⟨w2, _ | ⟨w3, d2w⟩⟩⟩
      · exact utf8Step_none_short4a b0 h4
      · exact utf8Step_none_short4b b0 w1 h4
      · exact utf8Step_none_short4c b0 w1 w2 h4
      · exact utf8Step_none_guard4 b0 w1 w2 w3 d2w h4
          (by simp [cont4_ascii b0 w1 (hd2 w1 (by simp))])
    · rcases d2 with _ | ⟨w1, _ | ⟨w2, d2w⟩⟩
      · exact utf8Step_none_short4b b0 b1 h4
      · exact utf8Step_none_short4c b0 b1 w1 h4
      · exact utf8Step_none_guard4 b0 b1 w1 w2 d2w h4
          (by simp [contB_ascii w1 (hd2 w1 (by simp))])
    · rcases d2 with _ | ⟨w1, d2w⟩
      · exact utf8Step_none_short4c b0 b1 b2 h4
      · exact utf8Step_none_guard4 b0 b1 b2 w1 d2w h4
          (by simp [contB_ascii w1 (hd2 w1 (by simp))])
    · by_cases hg : (cont4 b0 b1 && contB b2 && contB b3) = true
      · rw [Bool.and_eq_true, Bool.and_eq_true] at hg
        rw [utf8Step_four b0 b1 b2 b3 rest3 h4 hg.1.1 hg.1.2 hg.2] at h
        simp at h
      · exact utf8Step_none_guard4 b0 b1 b2 b3 (rest3 ++ d2) h4 (by simpa using hg)
  · exact utf8Step_none_bad b0 (rest ++ d2) ha h2 h3 h4

theorem utf8Decode_all_ascii (d : List Byte) (h : ∀ b ∈ d, b.val ≤ 0x7F) :
    utf8Decode d = some (d.map latin1Char) := by
  induction d with
  | nil => rfl
  | cons b t ih =>
    rw [utf8Decode_cons, utf8Step_ascii b t (h b (by simp))]
    dsimp only
    rw [ih (fun x hx => h x (by simp [hx]))]
    rfl

theorem utf8Decode_append_aux : ∀ (n : Nat) (d1 d2 : List Byte) (cs1 : List Char),
    d1.length ≤ n → utf8Decode d1 = some cs1 →
    utf8Decode (d1 ++ d2) = (utf8Decode d2).map (fun cs => cs1 ++ cs) := by
  intro n
  induction n with
  | zero =>
    intro d1 d2 cs1 hn h
    have hd : d1 = [] := by
      cases d1 with
      | nil => rfl
      | cons a t => simp at hn
    subst hd
    rw [utf8Decode_nil] at h
    simp only [Option.some.injEq] at h
    subst h
    simp only [List.nil_append]
    cases utf8Decode d2 <;> simp
  | succ n ih =>
    intro d1 d2 cs1 hn h
    cases d1 with
    | nil =>
      rw [utf8Decode_nil] at h
      simp only [Option.some.injEq] at h
      subst h
      simp only [List.nil_append]
      cases utf8Decode d2 <;> simp
    | cons b0 rest =>
      rw [utf8Decode_cons] at h
      cases hs : utf8Step (b0 :: rest) with
      | none =>
        rw [hs] at h
        simp at h
      | some p =>
        obtain ⟨c, r⟩ := p
        rw [hs] at h
        dsimp only at h
        obtain ⟨cs2, hcs2, hval⟩ := Option.map_eq_some'.mp h
        subst hval
        have hlt := utf8Step_length _ _ _ hs
        simp only [List.length_cons] at hlt hn
        have hstep := utf8Step_append _ _ _ d2 hs
        rw [show (b0 :: rest) ++ d2 = b0 :: (rest ++ d2) from rfl] at hstep
        rw [show (b0 :: rest) ++ d2 = b0 :: (rest ++ d2) from rfl, utf8Decode_cons, hstep]
        dsimp only
        rw [ih r d2 cs2 (by omega) hcs2]
        cases utf8Decode d2 <;> simp

theorem utf8Decode_append (d1 d2 : List Byte) (cs1 : List Char)
    (h : utf8Decode d1 = some cs1) :
    utf8Decode (d1 ++ d2) = (utf8Decode d2).map (fun cs => cs1 ++ cs) :=
  utf8Decode_append_aux d1.length d1 d2 cs1 le_rfl h

theorem utf8Decode_append_none_aux : ∀ (n : Nat) (d1 d2 : List Byte),
    d1.length ≤ n → (∀ b ∈ d2, b.val ≤ 0x7F) → utf8Decode d1 = none →
    utf8Decode (d1 ++ d2) = none := by
  intro n
  induction n with
  | zero =>
    intro d1 d2 hn hd2 h
    cases d1 with
    | nil => rw [utf8Decode_nil] at h; simp at h
    | cons a t => simp at hn
  | succ n ih =>
    intro d1 d2 hn hd2 h
    cases d1 with
    | nil => rw [utf8Decode_nil] at h; simp at h
    | cons b0 rest =>
      rw [utf8Decode_cons] at h
      cases hs : utf8Step (b0 :: rest) with
      | none =>
        have hstep := utf8Step_append_none b0 rest d2 hd2 hs
        rw [show (b0 :: rest) ++ d2 = b0 :: (rest ++ d2) from rfl] at hstep
        rw [show (b0 :: rest) ++ d2 = b0 :: (rest ++ d2) from rfl, utf8Decode_cons, hstep]
      | some p =>
        obtain ⟨c, r⟩ := p
        rw [hs] at h
        dsimp only at h
        rw [Option.map_eq_none'] at h
        have hlt := utf8Step_length _ _ _ hs
        simp only [List.length_cons] at hlt hn
        have hstep := utf8Step_append _ _ _ d2 hs
        rw [show (b0 :: rest) ++ d2 = b0 :: (rest ++ d2) from rfl] at hstep
        rw [show (b0 :: rest) ++ d2 = b0 :: (rest ++ d2) from rfl, utf8Decode_cons, hstep]
        dsimp only
        rw [ih r d2 (by omega) hd2 h]
        rfl

theorem utf8Decode_append_none (d1 d2 : List Byte) (hd2 : ∀ b ∈ d2, b.val ≤ 0x7F)
    (h : utf8Decode d1 = none) : utf8Decode (d1 ++ d2) = none :=
  utf8Decode_append_none_aux d1.length d1 d2 le_rfl hd2 h

theorem utf8Step_char_ws (b : Byte) (rest : List Byte) (c : Char) (r : List Byte)
    (h : utf8Step (b :: rest) = some (c, r)) :
    (isWsChar c = true → isWsByte b = true) ∧
    (isWsByte b = true → c = latin1Char b ∧ r = rest) := by
  rcases utf8Step_some_inv _ _ _ h with ⟨b0, hl, ha, hc⟩ | ⟨b0, b1, hl, h0, hcb, hc⟩ |
    ⟨b0, b1, b2, hl, h0, hc1, hc2, hc⟩ | ⟨b0, b1, b2, b3, hl, h0, hc1, hc2, hc3, hc⟩
  · injection hl with h1 h2
    subst h1
    subst h2
    subst hc
    exact ⟨fun hw => (isWsChar_latin1Char b) ▸ hw, fun _ => ⟨rfl, rfl⟩⟩
  · injection hl with h1 h2
    subst h1
    subst h2
    subst hc
    have := isWsChar_ge _ (char2_toNat_ge b b1 h0 hcb)
    refine ⟨fun hw => absurd hw (by simp [this]), fun hw => absurd (isWsByte_ascii _ hw) (by omega)⟩
  · injection hl with h1 h2
    subst h1
    subst h2
    subst hc
    have := isWsChar_ge _ (char3_toNat_ge b b1 b2 h0 hc1 hc2)
    refine ⟨fun hw => absurd hw (by simp [this]), fun hw => absurd (isWsByte_ascii _ hw) (by omega)⟩
  · injection hl with h1 h2
    subst h1
    subst h2
    subst hc
    have := isWsChar_ge _ (char4_toNat_ge b b1 b2 b3 h0 hc1 hc2 hc3)
    refine ⟨fun hw => absurd hw (by simp [this]), fun hw => absurd (isWsByte_ascii _ hw) (by omega)⟩

theorem utf8Decode_dropWhile (d : List Byte) :
    utf8Decode (d.dropWhile isWsByte) = (utf8Decode d).map (List.dropWhile isWsChar) := by
  induction d with
  | nil => rfl
  | cons b t ih =>
    by_cases hw : isWsByte b = true
    · have ha := isWsByte_ascii b hw
      rw [List.dropWhile_cons, if_pos hw, ih, utf8Decode_cons, utf8Step_ascii b t ha]
      dsimp only
      cases utf8Decode t <;>
        simp [List.dropWhile_cons, isWsChar_latin1Char, hw]
    · rw [List.dropWhile_cons, if_neg hw]
      cases hd : utf8Decode (b :: t) with
      | none => rfl
      | some cs =>
        rw [utf8Decode_cons] at hd
        cases hs : utf8Step (b :: t) with
        | none =>
          rw [hs] at hd
          simp at hd
        | some p =>
          obtain ⟨c, r⟩ := p
          rw [hs] at hd
          dsimp only at hd
          obtain ⟨cs2, hcs2, hval⟩ := Option.map_eq_some'.mp hd
          subst hval
          have hcw : isWsChar c = false := by
            rcases hcc : isWsChar c with _ | _
            · rfl
            · exact absurd ((utf8Step_char_ws b t c r hs).1 hcc) (by simp [hw])
          simp [List.dropWhile_cons, hcw]

theorem utf8Decode_last_aux : ∀ (n : Nat) (l : List Byte) (cs : List Char),
    l.length ≤ n → utf8Decode l = some cs →
    ((cs = [] ↔ l = []) ∧
      ∀ (hcs : cs ≠ []) (hl : l ≠ []),
        isWsChar (cs.getLast hcs) = true → isWsByte (l.getLast hl) = true) := by
  intro n
  induction n with
  | zero =>
    intro l cs hn h
    have hl : l = [] := by
      cases l with
      | nil => rfl
      | cons a t => simp at hn
    subst hl
    rw [utf8Decode_nil] at h
    simp only [Option.some.injEq] at h
    subst h
    exact ⟨by simp, fun hcs hl => absurd rfl hl⟩
  | succ n ih =>
    intro l cs hn h
    cases l with
    | nil =>
      rw [utf8Decode_nil] at h
      simp only [Option.some.injEq] at h
      subst h
      exact ⟨by simp, fun hcs hl => absurd rfl hl⟩
    | cons b0 rest =>
      rw [utf8Decode_cons] at h
      cases hs : utf8Step (b0 :: rest) with
      | none =>
        rw [hs] at h
        simp at h
      | some p =>
        obtain ⟨c, r⟩ := p
        rw [hs] at h
        dsimp only at h
        obtain ⟨cs2, hcs2, hval⟩ := Option.map_eq_some'.mp h
        subst hval
        have hlt := utf8Step_length _ _ _ hs
        simp only [List.length_cons] at hlt hn
        obtain ⟨hiff, hlast⟩ := ih r cs2 (by omega) hcs2
        refine ⟨by simp, ?_⟩
        intro hcs hl hwl
        by_cases hcs2e : cs2 = []
        · subst hcs2e
          have hre : r = [] := hiff.mp rfl
          subst hre
          have hgl : (c :: ([] : List Char)).getLast hcs = c := rfl
          rw [hgl] at hwl
          have hws := (utf8Step_char_ws b0 rest c [] hs).1 hwl
          obtain ⟨hcc, hrr⟩ := (utf8Step_char_ws b0 rest c [] hs).2 hws
          subst hrr
          have : (b0 :: ([] : List Byte)).getLast hl = b0 := rfl
          rw [this]
          exact hws
        · have hre : r ≠ [] := fun hc => hcs2e (hiff.mpr hc)
          rw [List.getLast_cons hcs2e] at hwl
          have htail := hlast hcs2e hre hwl
          rcases utf8Step_some_inv _ _ _ hs with ⟨bb, he, _, _⟩ | ⟨bb, b1, he, _, _, _⟩ |
            ⟨bb, b1, b2, he, _, _, _, _⟩ | ⟨bb, b1, b2, b3, he, _, _, _, _, _⟩ <;>
            (injection he with he1 he2; subst he1; subst he2)
          · rwa [List.getLast_cons hre]
          · rw [List.getLast_cons (by simp), List.getLast_cons hre]
            exact htail
          · rw [List.getLast_cons (by simp), List.getLast_cons (by simp),
              List.getLast_cons hre]
            exact htail
          · rw [List.getLast_cons (by simp), List.getLast_cons (by simp),
              List.getLast_cons (by simp), List.getLast_cons hre]
            exact htail

theorem utf8Decode_last (l : List Byte) (cs : List Char) (h : utf8Decode l = some cs) :
    (cs = [] ↔ l = []) ∧
      ∀ (hcs : cs ≠ []) (hl : l ≠ []),
        isWsChar (cs.getLast hcs) = true → isWsByte (l.getLast hl) = true :=
  utf8Decode_last_aux l.length l cs le_rfl h

theorem rdropWhile_append_of_forall {α : Type} (p : α → Bool) (a b : List α)
    (hb : ∀ x ∈ b, p x = true) : (a ++ b).rdropWhile p = a.rdropWhile p := by
  rw [List.rdropWhile, List.rdropWhile, List.reverse_append, List.dropWhile_append]
  have hbe : b.reverse.dropWhile p = [] := by
    rw [List.dropWhile_eq_nil_iff]
    intro x hx
    exact hb x (List.mem_reverse.mp hx)
  rw [hbe]
  simp

theorem utf8Decode_rdropWhile (d : List Byte) :
    utf8Decode (d.rdropWhile isWsByte) = (utf8Decode d).map (List.rdropWhile isWsChar) := by
  have hdec : d.rdropWhile isWsByte ++ d.rtakeWhile isWsByte = d :=
    rdropWhile_append_rtakeWhile _ _
  have hl2ws : ∀ b ∈ d.rtakeWhile isWsByte, isWsByte b = true :=
    fun b hb => List.mem_rtakeWhile_imp hb
  have hl2a : ∀ b ∈ d.rtakeWhile isWsByte, b.val ≤ 0x7F :=
    fun b hb => isWsByte_ascii b (hl2ws b hb)
  have hwchars : ∀ c ∈ (d.rtakeWhile isWsByte).map latin1Char, isWsChar c = true := by
    intro c hc
    obtain ⟨b, hb, hbc⟩ := List.mem_map.mp hc
    rw [← hbc, isWsChar_latin1Char]
    exact hl2ws b hb
  cases h1 : utf8Decode (d.rdropWhile isWsByte) with
  | some cs1 =>
    have hd2 : utf8Decode d = some (cs1 ++ (d.rtakeWhile isWsByte).map latin1Char) := by
      conv_lhs => rw [← hdec]
      rw [utf8Decode_append _ _ cs1 h1, utf8Decode_all_ascii _ hl2a]
      rfl
    have hself : cs1.rdropWhile isWsChar = cs1 := by
      rw [List.rdropWhile_eq_self_iff]
      intro hcs hws
      have hl1ne : d.rdropWhile isWsByte ≠ [] :=
        fun he => hcs ((utf8Decode_last _ _ h1).1.mpr he)
      have := (utf8Decode_last _ _ h1).2 hcs hl1ne hws
      exact absurd this (by simpa using List.rdropWhile_last_not isWsByte d hl1ne)
    rw [hd2]
    dsimp only [Option.map]
    rw [rdropWhile_append_of_forall _ _ _ hwchars, hself]
  | none =>
    have hd2 : utf8Decode d = none := by
      conv_lhs => rw [← hdec]
      exact utf8Decode_append_none _ _ hl2a h1
    rw [hd2]
    rfl

theorem utf8Decode_stripBytes (d : List Byte) :
    utf8Decode (stripBytes d) = (utf8Decode d).map stripChars := by
  unfold stripBytes
  rw [utf8Decode_rdropWhile, utf8Decode_dropWhile]
  cases utf8Decode d <;> simp [stripChars]

theorem latin1Decode_stripBytes (d : List Byte) :
    latin1Decode (stripBytes d) = stripChars (latin1Decode d) := by
  have hfun : (isWsChar ∘ latin1Char) = isWsByte := by
    funext b
    simp [Function.comp, isWsChar_latin1Char]
  unfold stripBytes stripChars latin1Decode
  simp only [List.rdropWhile, List.dropWhile_map, hfun, ← List.map_reverse]

theorem decodeLoop_stripBytes (d : List Byte) :
    decodeLoop (stripBytes d) = (decodeLoop d).map stripChars := by
  unfold decodeLoop latin1DecodeOpt
  have hu := utf8Decode_stripBytes d
  cases hd : utf8Decode d with
  | some cs =>
    rw [hd] at hu
    rw [hu]
    simp
  | none =>
    rw [hd] at hu
    rw [hu]
    dsimp only
    rw [latin1Decode_stripBytes]
    simp

theorem decodeLoop_isSome (d : List Byte) : (decodeLoop d).isSome = true := by
  unfold decodeLoop latin1DecodeOpt
  cases utf8Decode d <;> simp

theorem decodeLoop_nil_iff (d : List Byte) (cs : List Char) (h : decodeLoop d = some cs) :
    cs = [] ↔ d = [] := by
  unfold decodeLoop latin1DecodeOpt at h
  cases hd : utf8Decode d with
  | some cs2 =>
    rw [hd] at h
    dsimp only at h
    simp only [Option.some.injEq] at h
    subst h
    exact (utf8Decode_last _ _ hd).1
  | none =>
    rw [hd] at h
    dsimp only at h
    simp only [Option.some.injEq] at h
    subst h
    unfold latin1Decode
    simp

theorem pyMessage_of_decode (data : List Byte) (cs : List Char)
    (h : decodeLoop data = some cs) : pyMessage data = stripChars cs := by
  unfold pyMessage
  rw [decodeLoop_stripBytes, h]
  rfl

theorem pyMessage_nil_iff (data : List Byte) :
    pyMessage data = [] ↔ stripBytes data = [] := by
  unfold pyMessage
  cases hl : decodeLoop (stripBytes data) with
  | none =>
    have := decodeLoop_isSome (stripBytes data)
    rw [hl] at this
    simp at this
  | some cs =>
    dsimp only
    exact decodeLoop_nil_iff _ _ hl

/-! ## Store lemmas -/

theorem appendEvict_length_le (cap : Nat) (logs : List LogEntry) (e : LogEntry)
    (h : logs.length ≤ cap) : (appendEvict cap logs e).length ≤ cap := by
  simp only [appendEvict, List.length_append, List.length_cons, List.length_nil]
  split
  · simp; omega
  · simp at *; omega

theorem foldl_appendEvict (cap : Nat) (es : List LogEntry) (l0 : List LogEntry)
    (h : l0.length ≤ cap) :
    es.foldl (appendEvict cap) l0 = (l0 ++ es).drop (l0.length + es.length - cap) := by
  induction es generalizing l0 with
  | nil =>
    simp [Nat.sub_eq_zero_of_le h]
  | cons e es ih =>
    rw [List.foldl_cons]
    by_cases hc : l0.length + 1 ≤ cap
    · have he : appendEvict cap l0 e = l0 ++ [e] := by
        simp only [appendEvict, List.length_append, List.length_cons, List.length_nil]
        split
        · omega
        · rfl
      rw [he, ih (l0 ++ [e]) (by simp; omega)]
      simp only [List.length_append, List.length_cons, List.length_nil, List.append_assoc,
        List.singleton_append]
      congr 1
      omega
    · have hl : l0.length = cap := by omega
      have he : appendEvict cap l0 e = (l0 ++ [e]).drop 1 := by
        simp only [appendEvict, List.length_append, List.length_cons, List.length_nil]
        split
        · rfl
        · omega
      have hlen : ((l0 ++ [e]).drop 1).length = cap := by simp; omega
      rw [he, ih _ (le_of_eq hlen), hlen]
      have hidx : cap + es.length - cap = es.length := by omega
      have hsplit : (List.drop 1 (l0 ++ [e])) ++ es = List.drop 1 ((l0 ++ [e]) ++ es) :=
        (List.drop_append_of_le_length (by simp)).symm
      rw [hidx, hsplit, List.drop_drop, List.append_assoc, List.singleton_append]
      congr 1
      simp only [List.length_cons]
      omega

theorem mem_appendEvict (cap : Nat) (logs : List LogEntry) (e x : LogEntry)
    (h : x ∈ appendEvict cap logs e) : x ∈ logs ∨ x = e := by
  simp only [appendEvict] at h
  split at h
  · have := List.mem_of_mem_drop h
    simp at this
    tauto
  · simp at h
    tauto

theorem self_mem_appendEvict (logs : List LogEntry) (e : LogEntry) :
    e ∈ appendEvict MAX_LOGS logs e := by
  simp only [appendEvict, MAX_LOGS]
  split
  · next hlen =>
    simp at hlen
    have : (logs ++ [e]).drop 1 = logs.drop 1 ++ [e] :=
      @List.drop_append_of_le_length _ logs [e] 1 (by omega)
    rw [this]
    simp
  · simp

/-! ## Claim C1 -/

/-- **C1.** For every sequence of `N` sequential appends to the bounded
in-memory store with cap `C` (the append-and-maybe-evict of lines
245-249) with `N > C`, the resulting store has length exactly `C` and is
exactly the `C` most-recently-appended records in insertion order; with
cap `2`, appending `A`, `B`, `C` leaves `[B, C]`. -/
theorem c1_fifo_eviction_keeps_last_cap (cap : Nat) (es : List LogEntry)
    (h : cap < es.length) :
    (es.foldl (appendEvict cap) []).length = cap ∧
    es.foldl (appendEvict cap) [] = es.drop (es.length - cap) ∧
    ∀ A B C : LogEntry, [A, B, C].foldl (appendEvict 2) [] = [B, C] := by
  have hfold := foldl_appendEvict cap es [] (by simp)
  simp only [List.nil_append, List.length_nil, Nat.zero_add] at hfold
  refine ⟨?_, hfold, ?_⟩
  · rw [hfold, List.length_drop]
    omega
  · intro A B C
    rfl

/-- Witness for C1 at `cap = 2` and the three-record scenario. -/
theorem c1_fifo_eviction_keeps_last_cap_witness :
    (([⟨"t1", "s", "A"⟩, ⟨"t2", "s", "B"⟩, ⟨"t3", "s", "C"⟩] : List LogEntry).foldl
      (appendEvict 2) []).length = 2 ∧
    ([⟨"t1", "s", "A"⟩, ⟨"t2", "s", "B"⟩, ⟨"t3", "s", "C"⟩] : List LogEntry).foldl
      (appendEvict 2) [] =
      ([⟨"t1", "s", "A"⟩, ⟨"t2", "s", "B"⟩, ⟨"t3", "s", "C"⟩] : List LogEntry).drop
        (([⟨"t1", "s", "A"⟩, ⟨"t2", "s", "B"⟩, ⟨"t3", "s", "C"⟩] : List LogEntry).length - 2) ∧
    ∀ A B C : LogEntry, [A, B, C].foldl (appendEvict 2) [] = [B, C] :=
  c1_fifo_eviction_keeps_last_cap 2 _ (by decide)

/-! ## Claim C5 -/

/-- **C5.** A datagram on which the decode sequence fails — which, the
`latin-1` fallback being total, is exactly the condition `not message`
the code reports as "Could not decode message" (lines 232-234): the
stripped payload decodes to the empty string — creates no record and
leaves the store (in particular its length) unchanged. -/
theorem c5_decode_failure_drops (data : List Byte) (source : String) (now : DateTime)
    (logs : List LogEntry) (h : pyMessage data = []) :
    handle data source now logs = logs := by
  simp [handle, handleBody, h]

/-- Witness for C5: a whitespace-only datagram against a non-empty store. -/
theorem c5_decode_failure_drops_witness :
    pyMessage [32, 9] = [] ∧
    handle [32, 9] "127.0.0.1" ⟨2024, 1, 1, 0, 0, 0⟩ [⟨"t", "s", "m"⟩] = [⟨"t", "s", "m"⟩] :=
  ⟨by decide, c5_decode_failure_drops [32, 9] "127.0.0.1" ⟨2024, 1, 1, 0, 0, 0⟩
    [⟨"t", "s", "m"⟩] (by decide)⟩

/-! ## Claim C6 -/

/-- **C6.** The datagram handler is total: for every byte sequence
(malformed and truncated payloads included) the body never raises to the
`except` clause, the handler returns normally, and the result is either
the unchanged store or the store after one append-and-maybe-evict. -/
theorem c6_handler_total (data : List Byte) (source : String) (now : DateTime)
    (logs : List LogEntry) :
    handleBody data source now logs = Except.ok (handle data source now logs) ∧
    (handle data source now logs = logs ∨
      ∃ e, handle data source now logs = appendEvict MAX_LOGS logs e) := by
  by_cases h : pyMessage data = []
  · refine ⟨?_, Or.inl ?_⟩ <;> simp [handle, handleBody, h]
  · refine ⟨?_, Or.inr ⟨⟨fmtTime now, source, ⟨pyMessage data⟩⟩, ?_⟩⟩ <;>
      simp [handle, handleBody, h]

/-! ## Claim C7 -/

/-- **C7.** Every GET whose path is neither the viewer page path `"/"`
nor `"/logs"` gets status `404`, no `Content-type` header, and an empty
body (lines 271-274). -/
theorem c7_unknown_path_404 (path : String) (logs : List LogEntry)
    (h1 : path ≠ "/") (h2 : path ≠ "/logs") :
    doGET path logs = ⟨404, none, ""⟩ := by
  simp [doGET, h1, h2]

/-- Witness for C7 at the spec's concrete scenario `GET /nonexistent`. -/
theorem c7_unknown_path_404_witness :
    doGET "/nonexistent" [] = ⟨404, none, ""⟩ :=
  c7_unknown_path_404 "/nonexistent" [] (by decide) (by decide)

/-! ## Claim C8 -/

/-- **C8.** `len(LOGS) ≤ MAX_LOGS` is an invariant of the store: it holds
for the initial empty store and is preserved by every
append-and-maybe-evict; insertion into a full store evicts exactly the
oldest record. -/
theorem c8_cap_invariant (logs : List LogEntry) (e : LogEntry) :
    ([] : List LogEntry).length ≤ MAX_LOGS ∧
    (logs.length ≤ MAX_LOGS → (appendEvict MAX_LOGS logs e).length ≤ MAX_LOGS) ∧
    (logs.length = MAX_LOGS → appendEvict MAX_LOGS logs e = logs.tail ++ [e]) := by
  refine ⟨by simp, fun h => appendEvict_length_le MAX_LOGS logs e h, fun h => ?_⟩
  have h2000 : logs.length = 2000 := h
  simp only [appendEvict, List.length_append, List.length_cons, List.length_nil]
  split
  · rw [@List.drop_append_of_le_length _ logs [e] 1 (by omega), List.drop_one]
  · next hc => exact absurd (by simp only [MAX_LOGS]; omega) hc

/-- Witness for C8 at a full store of `MAX_LOGS` records. -/
theorem c8_cap_invariant_witness :
    ([] : List LogEntry).length ≤ MAX_LOGS ∧
    (appendEvict MAX_LOGS (List.replicate 2000 (⟨"t", "s", "old"⟩ : LogEntry))
      ⟨"t", "s", "new"⟩).length ≤ MAX_LOGS ∧
    appendEvict MAX_LOGS (List.replicate 2000 (⟨"t", "s", "old"⟩ : LogEntry))
      ⟨"t", "s", "new"⟩ =
      (List.replicate 2000 (⟨"t", "s", "old"⟩ : LogEntry)).tail ++ [⟨"t", "s", "new"⟩] :=
  ⟨(c8_cap_invariant [] ⟨"t", "s", "new"⟩).1,
    (c8_cap_invariant _ _).2.1 (by rw [List.length_replicate]; decide),
    (c8_cap_invariant _ _).2.2 (by rw [List.length_replicate]; rfl)⟩

/-! ## Claim C9 -/

/-- **C9 counterexample.** In the `/logs` branch as written (lines
266-270) the JSON serialization executes while `LOGS_LOCK` is held, and
no copy of `LOGS` is taken anywhere in the branch — refuting the claim
that a snapshot copy lets the lock be released before serialization. -/
theorem c9_claim_counterexample :
    serializedUnderLock logsBranchOps = true ∧
    logsBranchOps.contains ServerOp.copyList = false := by
  decide

/-- **C9 (amended).** `GET /logs` serializes the records to JSON and
writes the response body while holding the mutual-exclusion lock; the
branch takes no snapshot copy of the list. -/
theorem c9_lock_held_during_serialization :
    serializedUnderLock logsBranchOps = true ∧
    wroteBodyUnderLock logsBranchOps = true ∧
    logsBranchOps.contains ServerOp.copyList = false := by
  decide

/-! ## Claim C3 -/

/-- **C3 counterexample.** `BaseHTTPRequestHandler` keeps any query
string inside `self.path`, and line 260 compares `self.path == '/'`
exactly: a GET for the viewer page with a query parameter attached is
answered `404` with an empty body, not `200` with the page. -/
theorem c3_claim_counterexample : doGET "/?a=1" [] = ⟨404, none, ""⟩ := by
  decide

/-- **C3 (amended).** A GET whose path is exactly `"/"` returns `200`
with `Content-type: text/html` and the fixed HTML document as body; a GET
for the viewer page with query parameters attached (path `"/?" ++ q`)
instead falls through to the `404` branch. -/
theorem c3_viewer_page (logs : List LogEntry) (q : String) :
    doGET "/" logs = ⟨200, some "text/html", HTML_CONTENT⟩ ∧
    doGET ("/?" ++ q) logs = ⟨404, none, ""⟩ := by
  have h1 : ("/?" ++ q) ≠ "/" := by
    intro hcontra
    have h' := congrArg String.data hcontra
    rw [String.data_append] at h'
    have e1 : ("/?" : String).data = ['/', '?'] := rfl
    have e2 : ("/" : String).data = ['/'] := rfl
    rw [e1, e2] at h'
    simp at h'
  have h2 : ("/?" ++ q) ≠ "/logs" := by
    intro hcontra
    have h' := congrArg String.data hcontra
    rw [String.data_append] at h'
    have e1 : ("/?" : String).data = ['/', '?'] := rfl
    have e2 : ("/logs" : String).data = ['/', 'l', 'o', 'g', 's'] := rfl
    rw [e1, e2] at h'
    simp at h'
  exact ⟨by simp [doGET], by simp [doGET, h1, h2]⟩


theorem handle_eq (data : List Byte) (source : String) (now : DateTime)
    (logs : List LogEntry) :
    handle data source now logs =
      if pyMessage data = [] then logs
      else appendEvict MAX_LOGS logs ⟨fmtTime now, source, ⟨pyMessage data⟩⟩ := by
  unfold handle handleBody
  split_ifs <;> rfl

theorem digitChar_isDigit (n : Nat) (h : n < 10) : (Nat.digitChar n).isDigit = true := by
  interval_cases n <;> decide

theorem isTimestampFormat_fmtTime (t : DateTime) (h : ValidDateTime t) :
    isTimestampFormat (fmtTime t) = true := by
  obtain ⟨h1, h2, h3, h4, h5, h6, h7, h8, h9⟩ := h
  have d01 := digitChar_isDigit (t.year / 1000) (by omega)
  have d02 := digitChar_isDigit (t.year / 100 % 10) (by omega)
  have d03 := digitChar_isDigit (t.year / 10 % 10) (by omega)
  have d04 := digitChar_isDigit (t.year % 10) (by omega)
  have d05 := digitChar_isDigit (t.month / 10) (by omega)
  have d06 := digitChar_isDigit (t.month % 10) (by omega)
  have d07 := digitChar_isDigit (t.day / 10) (by omega)
  have d08 := digitChar_isDigit (t.day % 10) (by omega)
  have d09 := digitChar_isDigit (t.hour / 10) (by omega)
  have d10 := digitChar_isDigit (t.hour % 10) (by omega)
  have d11 := digitChar_isDigit (t.minute / 10) (by omega)
  have d12 := digitChar_isDigit (t.minute % 10) (by omega)
  have d13 := digitChar_isDigit (t.second / 10) (by omega)
  have d14 := digitChar_isDigit (t.second % 10) (by omega)
  simp [fmtTime, isTimestampFormat, pad4, pad2, d01, d02, d03, d04, d05, d06, d07,
    d08, d09, d10, d11, d12, d13, d14]

theorem reachable_invariant (logs : List LogEntry) (h : Reachable logs) :
    ∀ e ∈ logs, isTimestampFormat e.timestamp = true ∧ e.message ≠ "" := by
  induction h with
  | nil => simp
  | step data source t logs hr hv ih =>
    intro e he
    rw [handle_eq] at he
    by_cases hm : pyMessage data = []
    · rw [if_pos hm] at he
      exact ih e he
    · rw [if_neg hm] at he
      rcases mem_appendEvict _ _ _ _ he with hmem | hnew
      · exact ih e hmem
      · subst hnew
        refine ⟨isTimestampFormat_fmtTime t hv, ?_⟩
        simp only [ne_eq, String.ext_iff]
        simpa using hm

/-- **C2 counterexample.** The whitespace-only datagram `b" "` is
decodable (UTF-8 succeeds on it), yet the handler stores nothing: against
an empty store the store is still empty after the handler returns, so no
record with the trimmed decoded message is present. -/
theorem c2_claim_counterexample :
    (utf8Decode [32]).isSome = true ∧
    handle [32] "127.0.0.1" ⟨2024, 1, 1, 0, 0, 0⟩ [] = [] := by
  constructor
  · decide
  · decide

/-- **C2 (amended).** For every datagram decodable under at least one
supported encoding (first success of utf-8, latin-1, ascii) whose decoded
text trimmed of leading/trailing ASCII whitespace is non-empty, the
stored record's `message` equals that trimmed decoded text and the record
is in the store when the handler returns; a decodable datagram whose
trimmed text is empty is dropped (cf. C5/C10). -/
theorem c2_trimmed_decode_stored (data : List Byte) (source : String) (now : DateTime)
    (logs : List LogEntry) (cs : List Char) (hdec : decodeLoop data = some cs)
    (hne : stripChars cs ≠ []) :
    handle data source now logs =
      appendEvict MAX_LOGS logs ⟨fmtTime now, source, ⟨stripChars cs⟩⟩ ∧
    (⟨fmtTime now, source, ⟨stripChars cs⟩⟩ : LogEntry) ∈ handle data source now logs := by
  have hmsg : pyMessage data = stripChars cs := pyMessage_of_decode data cs hdec
  have hm : ¬ pyMessage data = [] := by
    rw [hmsg]
    exact hne
  rw [handle_eq, if_neg hm, hmsg]
  exact ⟨rfl, self_mem_appendEvict _ _⟩

/-- Witness for C2 (amended) on the datagram `b"  hi "`. -/
theorem c2_trimmed_decode_stored_witness :
    handle [32, 32, 104, 105, 32] "10.0.0.1" ⟨2024, 1, 2, 3, 4, 5⟩ [] =
      appendEvict MAX_LOGS []
        ⟨fmtTime ⟨2024, 1, 2, 3, 4, 5⟩, "10.0.0.1", ⟨stripChars [' ', ' ', 'h', 'i', ' ']⟩⟩ ∧
    (⟨fmtTime ⟨2024, 1, 2, 3, 4, 5⟩, "10.0.0.1",
        ⟨stripChars [' ', ' ', 'h', 'i', ' ']⟩⟩ : LogEntry) ∈
      handle [32, 32, 104, 105, 32] "10.0.0.1" ⟨2024, 1, 2, 3, 4, 5⟩ [] :=
  c2_trimmed_decode_stored [32, 32, 104, 105, 32] "10.0.0.1" ⟨2024, 1, 2, 3, 4, 5⟩ []
    [' ', ' ', 'h', 'i', ' '] (by decide) (by decide)

/-- **C4.** `GET /logs` answers `200` with `Content-type:
application/json` and body `json.dumps(LOGS)` — the JSON array of the
stored records in insertion order — and on every reachable store each
record is an object of the three string fields with `timestamp` shaped
`YYYY-MM-DD HH:MM:SS`. -/
theorem c4_logs_endpoint_json (logs : List LogEntry) (h : Reachable logs) :
    doGET "/logs" logs = ⟨200, some "application/json", jsonDumps logs⟩ ∧
    ∀ e ∈ logs, isTimestampFormat e.timestamp = true := by
  refine ⟨by simp [doGET], fun e he => (reachable_invariant logs h e he).1⟩

/-- Witness for C4 on the store reached by handling one datagram. -/
theorem c4_logs_endpoint_json_witness :
    doGET "/logs" (handle [104, 105] "1.2.3.4" ⟨2024, 5, 6, 7, 8, 9⟩ []) =
      ⟨200, some "application/json",
        jsonDumps (handle [104, 105] "1.2.3.4" ⟨2024, 5, 6, 7, 8, 9⟩ [])⟩ ∧
    ∀ e ∈ handle [104, 105] "1.2.3.4" ⟨2024, 5, 6, 7, 8, 9⟩ [],
      isTimestampFormat e.timestamp = true :=
  c4_logs_endpoint_json _
    (Reachable.step [104, 105] "1.2.3.4" ⟨2024, 5, 6, 7, 8, 9⟩ [] Reachable.nil (by decide))

/-- **C10.** The latin-1 fallback makes the decode loop total (it never
returns `none`); a datagram produces no record exactly when its payload
stripped of ASCII whitespace is empty (the handler then leaves the store
unchanged, and otherwise appends the decoded record); consequently every
record in a reachable store has a non-empty `message`. -/
theorem c10_latin1_total_invariant (data : List Byte) (source : String) (now : DateTime)
    (logs : List LogEntry) :
    (decodeLoop data).isSome = true ∧
    (pyMessage data = [] ↔ stripBytes data = []) ∧
    (stripBytes data = [] → handle data source now logs = logs) ∧
    (stripBytes data ≠ [] → handle data source now logs =
      appendEvict MAX_LOGS logs ⟨fmtTime now, source, ⟨pyMessage data⟩⟩) ∧
    (Reachable logs → ∀ e ∈ logs, e.message ≠ "") := by
  refine ⟨decodeLoop_isSome data, pyMessage_nil_iff data, fun hs => ?_, fun hs => ?_,
    fun hr e he => (reachable_invariant logs hr e he).2⟩
  · rw [handle_eq, if_pos ((pyMessage_nil_iff data).mpr hs)]
  · rw [handle_eq, if_neg (fun hc => hs ((pyMessage_nil_iff data).mp hc))]

/-- Witness for C10 at the whitespace datagram `b" "` and the empty
store. -/
theorem c10_latin1_total_invariant_witness :
    (decodeLoop [32]).isSome = true ∧
    (pyMessage [32] = [] ↔ stripBytes [32] = []) ∧
    handle [32] "9.9.9.9" ⟨2024, 1, 1, 0, 0, 0⟩ [] = [] ∧
    handle [104] "9.9.9.9" ⟨2024, 1, 1, 0, 0, 0⟩ [] =
      appendEvict MAX_LOGS []
        ⟨fmtTime ⟨2024, 1, 1, 0, 0, 0⟩, "9.9.9.9", ⟨pyMessage [104]⟩⟩ ∧
    (∀ e ∈ ([] : List LogEntry), e.message ≠ "") :=
  ⟨(c10_latin1_total_invariant [32] "9.9.9.9" ⟨2024, 1, 1, 0, 0, 0⟩ []).1,
    (c10_latin1_total_invariant [32] "9.9.9.9" ⟨2024, 1, 1, 0, 0, 0⟩ []).2.1,
    (c10_latin1_total_invariant [32] "9.9.9.9" ⟨2024, 1, 1, 0, 0, 0⟩ []).2.2.1 (by decide),
    (c10_latin1_total_invariant [104] "9.9.9.9" ⟨2024, 1, 1, 0, 0, 0⟩ []).2.2.2.1 (by decide),
    (c10_latin1_total_invariant [32] "9.9.9.9" ⟨2024, 1, 1, 0, 0, 0⟩ []).2.2.2.2 Reachable.nil⟩

end Pylog
